import Mathlib

set_option linter.unusedVariables false

set_option linter.unnecessarySimpa false

/-!
Shallow embedding of the offline certificate-authority wrapper and the
standalone JWT signing workflow, translated from the Go sources
(command/ca/offline.go and the jwt sign command file).  External
collaborators (file system, JOSE library internals, randomness, the
wrapped certificates authority) are passed in explicitly as environment
values, so that every function here is executable and total.
-/

/-- JSON values as handled by the code.  JSON numbers are modelled as
integers because the code only ever places Unix timestamps (int64) in
numeric positions. -/
inductive Json where
  | null : Json
  | bool : Bool → Json
  | num : Int → Json
  | str : String → Json
  | arr : List Json → Json
  | obj : List (String × Json) → Json

/-- Lookup of a member in a JSON object (association list).  Models Go
map indexing: the first binding for a key is the one that counts, and
merge operations below put overriding bindings in front. -/
def getClaim (k : String) : List (String × Json) → Option Json
  | [] => none
  | kv :: rest => if kv.1 = k then some kv.2 else getClaim k rest

mutual

/-- Rendering of a JSON value to text, as the JSON encoder does before
base64url-encoding a JWT segment. -/
def renderJson : Json → String
  | .null => "null"
  | .bool true => "true"
  | .bool false => "false"
  | .num n => toString n
  | .str s => "\"" ++ s ++ "\""
  | .arr l => "[" ++ renderElems l ++ "]"
  | .obj l => "\x7b" ++ renderFields l ++ "\x7d"

/-- Comma-separated rendering of JSON array elements. -/
def renderElems : List Json → String
  | [] => ""
  | [x] => renderJson x
  | x :: y :: xs => renderJson x ++ "," ++ renderElems (y :: xs)

/-- Comma-separated rendering of JSON object members. -/
def renderFields : List (String × Json) → String
  | [] => ""
  | [kv] => "\"" ++ kv.1 ++ "\":" ++ renderJson kv.2
  | kv :: kv2 :: xs => "\"" ++ kv.1 ++ "\":" ++ renderJson kv.2 ++ "," ++ renderFields (kv2 :: xs)

end

/-- The base64url alphabet (RFC 4648 section 5), used by the compact JWT
serialization; it contains no dot, which is what makes the three-part
shape of a compact token recognizable. -/
def b64Alphabet : List Char :=
  "ABCDEFGHIJKLMNOPQRSTUVWXYZabcdefghijklmnopqrstuvwxyz0123456789-_".data

/-- The base64url character for a 6-bit group. -/
def b64Char (n : Nat) : Char := b64Alphabet.getD n 'A'

/-- Unpadded base64url encoding of a byte sequence (Go RawURLEncoding). -/
def b64urlBytes : List Nat → List Char
  | [] => []
  | [a] => [b64Char (a / 4 % 64), b64Char (a % 4 * 16)]
  | [a, b] => [b64Char (a / 4 % 64), b64Char (a % 4 * 16 + b / 16 % 16),
      b64Char (b % 16 * 4)]
  | a :: b :: c :: rest =>
      b64Char (a / 4 % 64) :: b64Char (a % 4 * 16 + b / 16 % 16) ::
      b64Char (b % 16 * 4 + c / 64 % 4) :: b64Char (c % 64) :: b64urlBytes rest

/-- Byte view of a string, as fed to the base64url encoder. -/
def strBytes (s : String) : List Nat := s.data.map Char.toNat

/-- Base64url encoding of a string. -/
def b64url (s : String) : String := String.mk (b64urlBytes (strBytes s))

/-- JOSE protected header of a signed JWT: the signature algorithm, the
token type set by WithType, and the optional key id set by WithHeader. -/
structure JoseHeader where
  alg : String
  typ : String
  kid : Option String
  deriving DecidableEq, Repr

/-- JSON rendering of the protected header. -/
def renderHeader (h : JoseHeader) : String :=
  renderJson (Json.obj
    ([("alg", Json.str h.alg), ("typ", Json.str h.typ)] ++
      (match h.kid with
       | some k => [("kid", Json.str k)]
       | none => [])))

/-- A signed JWT before compact serialization: protected header, claim
set (a JSON object), and the raw signature bytes produced by the
cryptographic signer (kept abstract as environment-supplied bytes). -/
structure JWS where
  header : JoseHeader
  claims : List (String × Json)
  sig : List Nat

/-- Compact serialization of a signed JWT:
base64url(header) . base64url(claims) . base64url(signature). -/
def serializeJWS (t : JWS) : String :=
  b64url (renderHeader t.header) ++ "." ++
  b64url (renderJson (Json.obj t.claims)) ++ "." ++
  String.mk (b64urlBytes t.sig)

/-- Modelled from the spec: jose.UnixNumericDate (the jose package is
not under src).  A zero timestamp means the flag was unset and yields
no date, matching the spec rule that not-before and issued-at default
to the current time only when unset. -/
def UnixNumericDate (s : Int) : Option Int :=
  if s = 0 then none else some s

/-- The registered JWT claim set built by the sign workflow
(jose.Claims): issuer, subject, audience, expiry, not-before,
issued-at and unique id. -/
structure Claims where
  issuer : String
  subject : String
  audience : List String
  expiry : Option Int
  notBefore : Option Int
  issuedAt : Option Int
  id : String
  deriving DecidableEq, Repr

/-- An optional numeric-date member of the claim-set JSON object:
omitted when absent. -/
def optSeg (k : String) (o : Option Int) : List (String × Json) :=
  match o with
  | some v => [(k, Json.num v)]
  | none => []

/-- Modelled from the spec: JSON marshalling of the registered claim
set (the jose package is not under src).  Every member is omitted when
empty, and an audience list is marshalled as a JSON array, which is why
the sign workflow overrides the single-audience case afterwards. -/
def marshalClaims (c : Claims) : List (String × Json) :=
  (if c.issuer = "" then [] else [("iss", Json.str c.issuer)]) ++
  ((if c.subject = "" then [] else [("sub", Json.str c.subject)]) ++
  ((if c.audience = [] then [] else [("aud", Json.arr (c.audience.map Json.str))]) ++
  (optSeg "exp" c.expiry ++
  (optSeg "nbf" c.notBefore ++
  (optSeg "iat" c.issuedAt ++
  (if c.id = "" then [] else [("jti", Json.str c.id)]))))))

/-- The sixteen hexadecimal characters used by randutil.Hex. -/
def hexDigit (n : Fin 16) : Char := "0123456789abcdef".data.getD n.val '0'

/-- Modelled from the spec: randutil.Hex (the randutil package is not
under src) returns a cryptographically random string of the given
length over the hexadecimal characters; the random source is passed in
explicitly. -/
def Hex (length : Nat) (rand : Nat → Fin 16) : String :=
  String.mk ((List.range length).map (fun i => hexDigit (rand i)))

/-- The command-line context of the jwt sign command: positional
arguments and flag values.  An Option field models ctx.IsSet: none
means the flag was not given; the Go accessors return the zero value
for an absent flag. -/
structure SignCtx where
  args : List String
  alg : String
  subtle : Bool
  key : String
  jwks : String
  kid : String
  iss : String
  sub : String
  aud : List String
  exp : Option Int
  nbf : Option Int
  iat : Option Int
  jti : Option String
  passwordFile : String
  noKid : Bool

/-- The parsed signing key as used by the sign workflow
(jose.JSONWebKey): key id, resolved algorithm, declared use, whether it
is a public key, and whether jose.ValidateJWK accepts it. -/
structure JSONWebKey where
  keyID : String
  algorithm : String
  use : String
  isPublic : Bool
  validates : Bool
  deriving DecidableEq, Repr

/-- Errors of the sign workflow.  Constructors carrying flag names
model error messages that name the offending flags. -/
inductive SignError where
  | tooManyArguments : SignError
  | payloadError : String → SignError
  | requiredOrFlag : String → String → SignError
  | mutuallyExclusiveFlags : String → String → SignError
  | requiredWithFlag : String → String → SignError
  | keyParseError : String → SignError
  | publicKeyError : SignError
  | invalidUse : String → SignError
  | algFlagRequired : SignError
  | invalidJWK : SignError
  | expMustBeInFuture : SignError
  | nilDateDeref : SignError
  | requiredFlag : String → SignError
  | expInPast : SignError
  | signerError : SignError
  deriving DecidableEq, Repr

/-- File accesses performed by the sign workflow, recorded so that
ordering claims (no key file access before flag validation) can be
stated. -/
inductive Event where
  | readPayload : String → Event
  | parseKey : String → Event
  | parseKeySet : String → Event
  deriving DecidableEq, Repr

/-- Environment of one sign invocation: outcomes of the external
collaborators (standard input and file reads, key parsing, the
cryptographic signer) together with the clock and the random source. -/
structure SignEnv where
  payloadResult : Except SignError (List (String × Json))
  parseKeyResult : Except SignError JSONWebKey
  parseKeySetResult : Except SignError JSONWebKey
  now : Int
  rand : Nat → Fin 16
  newSignerOk : Bool
  sigBytes : List Nat

/-- Validation of the key, jwks and kid flags (the switch at the top of
signAction). -/
def checkKeyFlags (ctx : SignCtx) : Option SignError :=
  if ctx.key = "" ∧ ctx.jwks = "" then some (.requiredOrFlag "key" "jwks")
  else if ctx.key ≠ "" ∧ ctx.jwks ≠ "" then some (.mutuallyExclusiveFlags "key" "jwks")
  else if ctx.jwks ≠ "" ∧ ctx.kid = "" then some (.requiredWithFlag "kid" "jwks")
  else none

/-- The early expiry check: without the subtle override, a set exp flag
whose date lies before the current time is rejected.  A set value of
zero yields no date, on which the Go code would dereference a nil
pointer; that outcome is modelled as a distinct error. -/
def checkExpFlag (isSubtle : Bool) (expFlag : Option Int) (now : Int) : Option SignError :=
  if ¬isSubtle ∧ expFlag.isSome then
    match UnixNumericDate (expFlag.getD 0) with
    | none => some .nilDateDeref
    | some v => if v < now then some .expMustBeInFuture else none
  else none

/-- Claim construction of the sign workflow: flag values, then
defaulting of not-before and issued-at to the current time, then
generation of a random jti when the flag was given without a value. -/
def buildClaims (ctx : SignCtx) (now : Int) (randJti : String) : Claims :=
  let c0 : Claims := {
    issuer := ctx.iss
    subject := ctx.sub
    audience := ctx.aud
    expiry := UnixNumericDate (ctx.exp.getD 0)
    notBefore := UnixNumericDate (ctx.nbf.getD 0)
    issuedAt := UnixNumericDate (ctx.iat.getD 0)
    id := ctx.jti.getD "" }
  let c1 := if c0.notBefore = none then { c0 with notBefore := some now } else c0
  let c2 := if c1.issuedAt = none then { c1 with issuedAt := some now } else c1
  if c2.id = "" ∧ ctx.jti.isSome then { c2 with id := randJti } else c2

/-- Validation of the recommended claims: skipped entirely under the
subtle override; otherwise issuer, audience, subject and expiry are
required, in that order, and the expiry must not lie in the past. -/
def validateRecommended (isSubtle : Bool) (c : Claims) (now : Int) : Option SignError :=
  if isSubtle then none
  else if c.issuer = "" then some (.requiredFlag "iss")
  else if c.audience = [] then some (.requiredFlag "aud")
  else if c.subject = "" then some (.requiredFlag "sub")
  else
    match c.expiry with
    | none => some (.requiredFlag "exp")
    | some v => if v < now then some .expInPast else none

/-- The protected header registered on the signer: type JWT always, and
the key id of the signing key unless the hidden no-kid flag is set or
the key id is empty. -/
def signerHeader (noKid : Bool) (jwk : JSONWebKey) : JoseHeader :=
  { alg := jwk.algorithm
    typ := "JWT"
    kid := if ¬noKid ∧ jwk.keyID ≠ "" then some jwk.keyID else none }

/-- The single-audience override map: when the claim set has exactly
one audience value, an object binding aud to that bare string. -/
def audOverride (c : Claims) : List (String × Json) :=
  match c.audience with
  | [a] => [("aud", Json.str a)]
  | _ => []

/-- Modelled from the spec: merging of successive Claims calls on the
jose builder (the jose package is not under src).  A later call
overrides an earlier one on key collision; bindings of the overriding
object are placed in front, which is where getClaim looks first. -/
def mergeClaims (base over : List (String × Json)) : List (String × Json) :=
  over ++ base

/-- The sign workflow (signAction), as a function of the command-line
context and the environment.  Returns the trace of file accesses
together with either an error or the signed token; on success the Go
code prints the compact serialization of that token. -/
def signAction (ctx : SignCtx) (env : SignEnv) : List Event × Except SignError JWS :=
  if 2 ≤ ctx.args.length then ([], .error .tooManyArguments)
  else
    let src := match ctx.args with | [] => "" | f :: _ => f
    let tr0 := [Event.readPayload src]
    match env.payloadResult with
    | .error e => (tr0, .error e)
    | .ok payload =>
      match checkKeyFlags ctx with
      | some e => (tr0, .error e)
      | none =>
        let keyStep : List Event × Except SignError JSONWebKey :=
          if ctx.key ≠ "" then (tr0 ++ [Event.parseKey ctx.key], env.parseKeyResult)
          else if ctx.jwks ≠ "" then (tr0 ++ [Event.parseKeySet ctx.jwks], env.parseKeySetResult)
          else (tr0, .error (.requiredOrFlag "key" "jwks"))
        let tr1 := keyStep.1
        match keyStep.2 with
        | .error e => (tr1, .error e)
        | .ok jwk =>
          if jwk.isPublic then (tr1, .error .publicKeyError)
          else if jwk.use ≠ "sig" ∧ jwk.use ≠ "" then (tr1, .error (.invalidUse jwk.use))
          else if jwk.algorithm = "" then (tr1, .error .algFlagRequired)
          else if ¬jwk.validates then (tr1, .error .invalidJWK)
          else
            match checkExpFlag ctx.subtle ctx.exp env.now with
            | some e => (tr1, .error e)
            | none =>
              let c := buildClaims ctx env.now (Hex 40 env.rand)
              match validateRecommended ctx.subtle c env.now with
              | some e => (tr1, .error e)
              | none =>
                if ¬env.newSignerOk then (tr1, .error .signerError)
                else
                  (tr1, .ok {
                    header := signerHeader ctx.noKid jwk
                    claims := mergeClaims (mergeClaims (marshalClaims c) (audOverride c)) payload
                    sig := env.sigBytes })

/-- Key record of a JWK provisioner (the Key field): only the key id is
consulted by this code. -/
structure ProvKey where
  keyID : String
  deriving DecidableEq, Repr

/-- The closed set of provisioner variants dispatched over by
GenerateToken. -/
inductive Provisioner where
  | jwk (name : String) (key : ProvKey) (encryptedKey : String) : Provisioner
  | oidc (clientID : String) (clientSecret : String) (configurationEndpoint : String) : Provisioner
  | gcp (disableCustomSANs : Bool) : Provisioner
  | aws (disableCustomSANs : Bool) : Provisioner
  | azure (disableCustomSANs : Bool) : Provisioner
  deriving DecidableEq, Repr

/-- The provisioner section of the authority configuration. -/
structure AuthorityConfig where
  provisioners : List Provisioner
  deriving DecidableEq, Repr

/-- The decoded CA configuration (authority.Config): DNS names, root
certificate paths, intermediate certificate path, and the optional
authority section (a nil pointer in Go is modelled as none). -/
structure Config where
  dnsNames : List String
  root : List String
  intermediateCert : String
  authorityConfig : Option AuthorityConfig
  deriving DecidableEq, Repr

/-- The constructed signing authority (the authority.New result),
external to this code; kept abstract as a wrapper of the configuration
it was built from. -/
structure Authority where
  cfg : Config
  deriving DecidableEq, Repr

/-- The offline CA wrapper (the offlineCA struct). -/
structure OfflineCA where
  authority : Authority
  config : Config
  configFile : String
  deriving DecidableEq, Repr

/-- newOfflineCA: read the configuration file, JSON-decode it, require
a non-nil authority section with at least one provisioner, then build
the wrapped authority.  File reading, JSON decoding and authority
construction are external collaborators and are passed in. -/
def newOfflineCA (readFileResult : Except String (List Nat))
    (unmarshal : List Nat → Except String Config)
    (authorityNew : Config → Except String Authority)
    (configFile : String) : Except String OfflineCA :=
  match readFileResult with
  | .error e => .error e
  | .ok b =>
    match unmarshal b with
    | .error _ => .error ("error reading " ++ configFile)
    | .ok config =>
      if (match config.authorityConfig with
          | none => true
          | some ac => ac.provisioners.length = 0) then
        .error ("error parsing " ++ configFile ++ ": no provisioners found")
      else
        match authorityNew config with
        | .error e => .error e
        | .ok auth => .ok { authority := auth, config := config, configFile := configFile }

/-- Modelled from the spec: the sign token-type discriminant (defined
outside src); the exact integer values are immaterial, only that the
discriminants differ. -/
def signType : Int := 1

/-- Modelled from the spec: the revocation token-type discriminant
(defined outside src). -/
def revokeType : Int := 2

/-- Audience: the token audience built from the first configured DNS
name.  The Go code indexes DNSNames[0] unconditionally; the empty-list
case, in which it panics with an index out of range, is modelled as
none. -/
def Audience (c : OfflineCA) (tokType : Int) : Option String :=
  match c.config.dnsNames with
  | [] => none
  | dns :: _ =>
    some (if tokType = revokeType then "https://" ++ dns ++ "/revoke"
          else "https://" ++ dns ++ "/sign")

/-- CaURL: the CA URL from the first DNS entry; none models the panic
on an empty DNS-name list. -/
def CaURL (c : OfflineCA) : Option String :=
  match c.config.dnsNames with
  | [] => none
  | dns :: _ => some ("https://" ++ dns)

/-- Root: the first configured root certificate path. -/
def Root (c : OfflineCA) : String := c.config.root.headD ""

/-- Provisioners: the configured provisioner list (the authority
section is non-nil after a successful load). -/
def Provisioners (c : OfflineCA) : List Provisioner :=
  match c.config.authorityConfig with
  | none => []
  | some ac => ac.provisioners

/-- Errors of GenerateToken; panicEmptyDNS models the index panic on an
empty DNS-name list. -/
inductive GenError where
  | panicEmptyDNS : GenError
  | selectionError : String → GenError
  | oauthError : String → GenError
  | identityError : String → GenError
  | noEncryptedKey (kid : String) : GenError
  | decryptError : String → GenError
  | unmarshalError : GenError
  deriving DecidableEq, Repr

/-- Modelled from the spec: provisionerPrompt is not under src.  If
exactly one provisioner is configured it is selected without
prompting; with several, an interactive chooser picks one; an empty
list is a selection error. -/
def provisionerPrompt (provisioners : List Provisioner)
    (chooser : List Provisioner → Nat) : Except GenError Provisioner :=
  match provisioners with
  | [] => .error (.selectionError "no provisioners found")
  | [p] => .ok p
  | ps =>
    match ps.get? (chooser ps) with
    | some p => .ok p
    | none => .error (.selectionError "invalid provisioner selection")

/-- Environment of one GenerateToken call: the interactive chooser, the
external oauth helper, the cloud identity endpoints, key decryption and
decoding, and the signature bytes of the final signing step. -/
structure GenEnv where
  chooser : List Provisioner → Nat
  oauthStep : String → String → String → Except String String
  identityToken : String → String → Except String String
  decrypt : String → Except String (List Nat)
  unmarshalJWK : List Nat → Except String JSONWebKey
  sigBytes : List Nat

/-- Modelled from the spec: generateToken is not under src.  Following
the token-issuer contract, it builds claims with issuer equal to the
provisioner name, the audience resolved by the authority, the
caller-supplied subject and validity window, and signs with the
decrypted key, embedding the key id in the header, then
compact-serializes. -/
def generateToken (typ : Int) (subject : String) (sans : List String)
    (kid issuer audience root : String) (notBefore notAfter : Int)
    (jwk : JSONWebKey) (sigBytes : List Nat) : String :=
  serializeJWS {
    header := { alg := jwk.algorithm, typ := "JWT", kid := some kid }
    claims := [("iss", Json.str issuer), ("sub", Json.str subject),
      ("aud", Json.str audience), ("nbf", Json.num notBefore),
      ("exp", Json.num notAfter)]
    sig := sigBytes }

/-- GenerateToken: resolve root and audience from the configuration,
select a provisioner, and dispatch on its variant; the JWK path checks
and decrypts the encrypted key and signs the bootstrap token locally. -/
def GenerateToken (c : OfflineCA) (env : GenEnv) (typ : Int) (subject : String)
    (sans : List String) (notBefore notAfter : Int) : Except GenError String :=
  let root := Root c
  match Audience c typ with
  | none => .error .panicEmptyDNS
  | some audience =>
    match provisionerPrompt (Provisioners c) env.chooser with
    | .error e => .error e
    | .ok p =>
      match p with
      | .oidc clientID clientSecret cfgEndpoint =>
        match env.oauthStep cfgEndpoint clientID clientSecret with
        | .error e => .error (.oauthError e)
        | .ok out => .ok out.trim
      | .gcp _ | .aws _ | .azure _ =>
        match CaURL c with
        | none => .error .panicEmptyDNS
        | some url =>
          match env.identityToken subject url with
          | .error e => .error (.identityError e)
          | .ok tok => .ok tok
      | .jwk name key encryptedKey =>
        if encryptedKey = "" then .error (.noEncryptedKey key.keyID)
        else
          match env.decrypt encryptedKey with
          | .error e => .error (.decryptError e)
          | .ok decrypted =>
            match env.unmarshalJWK decrypted with
            | .error _ => .error .unmarshalError
            | .ok jwk =>
              .ok (generateToken typ subject sans key.keyID name audience root
                notBefore notAfter jwk env.sigBytes)

/-- Revocation request (the api.RevokeRequest fields used here). -/
structure RevokeRequest where
  serial : String
  ott : String
  reason : String
  reasonCode : Int
  passive : Bool
  deriving DecidableEq, Repr

/-- A parsed X.509 certificate, kept abstract as its DER bytes. -/
structure Certificate where
  der : List Nat
  deriving DecidableEq, Repr

/-- Options passed to the wrapped authority for revocation
(authority.RevokeOptions). -/
structure RevokeOptions where
  serial : String
  reason : String
  reasonCode : Int
  passiveOnly : Bool
  ott : String
  mtls : Bool
  crt : Option Certificate
  deriving DecidableEq, Repr

/-- Revocation response. -/
structure RevokeResponse where
  status : String
  deriving DecidableEq, Repr

/-- The mTLS transport state given to Revoke: the DER bytes of the
first client certificate of the transport. -/
structure Transport where
  leafCertDER : List Nat
  deriving DecidableEq, Repr

/-- Revoke: with a non-empty one-time token, pass it through with MTLS
false; otherwise parse the peer leaf certificate from the transport
state and set MTLS true; delegate to the wrapped authority and answer
with status ok. -/
def Revoke (authorityRevoke : RevokeOptions → Option String)
    (parseCertificate : List Nat → Except String Certificate)
    (c : OfflineCA) (req : RevokeRequest) (tr : Transport) :
    Except String RevokeResponse :=
  let base : RevokeOptions := {
    serial := req.serial
    reason := req.reason
    reasonCode := req.reasonCode
    passiveOnly := req.passive
    ott := ""
    mtls := false
    crt := none }
  let optsRes : Except String RevokeOptions :=
    if 0 < req.ott.length then .ok { base with ott := req.ott, mtls := false }
    else
      match parseCertificate tr.leafCertDER with
      | .error e => .error ("error parsing certificate: " ++ e)
      | .ok crt => .ok { base with crt := some crt, mtls := true }
  match optsRes with
  | .error e => .error e
  | .ok opts =>
    match authorityRevoke opts with
    | some e => .error e
    | none => .ok { status := "ok" }

/-- Hypotheses under which one run of the sign workflow gets past the
payload read, the flag validation and every key-policy check: at most
one positional argument, a decoded payload, a key resolved through the
key flag, and a private validated signing key with a resolved
algorithm. -/
structure ReachesClaims (ctx : SignCtx) (env : SignEnv)
    (payload : List (String × Json)) (jwk : JSONWebKey) : Prop where
  argsOk : ctx.args.length ≤ 1
  payloadOk : env.payloadResult = .ok payload
  keySet : ctx.key ≠ ""
  jwksUnset : ctx.jwks = ""
  parseOk : env.parseKeyResult = .ok jwk
  privateKey : jwk.isPublic = false
  useOk : jwk.use = "sig" ∨ jwk.use = ""
  algOk : jwk.algorithm ≠ ""
  validOk : jwk.validates = true

/-- Hypotheses under which one run of the sign workflow reaches the
signing step and produces a token. -/
structure ReachesSigning (ctx : SignCtx) (env : SignEnv)
    (payload : List (String × Json)) (jwk : JSONWebKey)
    extends ReachesClaims ctx env payload jwk : Prop where
  expOk : checkExpFlag ctx.subtle ctx.exp env.now = none
  recommendedOk : validateRecommended ctx.subtle
    (buildClaims ctx env.now (Hex 40 env.rand)) env.now = none
  signerOk : env.newSignerOk = true

/-- A private validated signing key fixture for concrete runs. -/
def jwkFix : JSONWebKey :=
  { keyID := "kid1", algorithm := "ES256", use := "sig", isPublic := false,
    validates := true }

/-- A command-line fixture for concrete runs of the sign workflow. -/
def ctxFix : SignCtx :=
  { args := [], alg := "", subtle := false, key := "key.pem", jwks := "",
    kid := "", iss := "issuer1", sub := "subject1", aud := ["aud1"],
    exp := some 100, nbf := some 5, iat := some 6, jti := none,
    passwordFile := "", noKid := false }

/-- An environment fixture for concrete runs of the sign workflow. -/
def envFix (payload : List (String × Json)) : SignEnv :=
  { payloadResult := .ok payload, parseKeyResult := .ok jwkFix,
    parseKeySetResult := .error (.keyParseError "unused"), now := 10,
    rand := fun _ => 0, newSignerOk := true, sigBytes := [1, 2, 3] }

/-- Command-line fixture with the single audience A. -/
def ctxC1 : SignCtx := { ctxFix with aud := ["A"] }

/-- A user payload that itself binds aud to a one-element array. -/
def payloadC1 : List (String × Json) := [("aud", Json.arr [Json.str "B"])]

/-- The token produced by the sign workflow on ctxC1 with payloadC1. -/
def jwsC1 : JWS :=
  { header := { alg := "ES256", typ := "JWT", kid := some "kid1" },
    claims := [("aud", Json.arr [Json.str "B"]), ("aud", Json.str "A"),
      ("iss", Json.str "issuer1"), ("sub", Json.str "subject1"),
      ("aud", Json.arr [Json.str "A"]), ("exp", Json.num 100),
      ("nbf", Json.num 5), ("iat", Json.num 6)],
    sig := [1, 2, 3] }

/-- Command-line fixture with unset not-before and issued-at and the
unique-id flag given without a value. -/
def ctx7 : SignCtx := { ctxFix with nbf := none, iat := none, jti := some "" }

/-- Configuration fixture with one JWK provisioner named admin. -/
def cfgFix : Config :=
  { dnsNames := ["ca.example.com"], root := ["root.crt"],
    intermediateCert := "im.crt",
    authorityConfig := some
      { provisioners := [Provisioner.jwk "admin" { keyID := "kid1" } "enc-key"] } }

/-- Offline CA fixture built over cfgFix. -/
def caFix : OfflineCA :=
  { authority := { cfg := cfgFix }, config := cfgFix, configFile := "ca.json" }

/-- Token-generation environment fixture. -/
def envGenFix : GenEnv :=
  { chooser := fun _ => 0,
    oauthStep := fun _ _ _ => .error "unused",
    identityToken := fun _ _ => .error "unused",
    decrypt := fun _ => .ok [7],
    unmarshalJWK := fun _ => .ok jwkFix,
    sigBytes := [9] }

/-- Configuration fixture with an authority section but no provisioners. -/
def cfgEmptyProv : Config :=
  { dnsNames := ["ca.example.com"], root := [], intermediateCert := "",
    authorityConfig := some { provisioners := [] } }

/-- Configuration fixture with provisioners but no DNS names. -/
def cfgNoDNS : Config :=
  { dnsNames := [], root := [], intermediateCert := "",
    authorityConfig := some { provisioners := [Provisioner.gcp false] } }

/-- Offline CA fixture over the DNS-less configuration. -/
def caNoDNS : OfflineCA :=
  { authority := { cfg := cfgNoDNS }, config := cfgNoDNS, configFile := "ca.json" }

/-- A revocation request fixture carrying a one-time token. -/
def reqFix : RevokeRequest :=
  { serial := "1234", ott := "tok", reason := "compromise", reasonCode := 1,
    passive := false }

/-- The revocation options delegated to the authority, as a function of
the request and the mode-dependent fields. -/
def mkRevokeOpts (req : RevokeRequest) (ott : String) (mtls : Bool)
    (crt : Option Certificate) : RevokeOptions :=
  { serial := req.serial, reason := req.reason, reasonCode := req.reasonCode,
    passiveOnly := req.passive, ott := ott, mtls := mtls, crt := crt }

/-- Command-line fixture with an empty issuer flag. -/
def ctx4a : SignCtx := { ctxFix with iss := "" }

/-- Command-line fixture with the subtle override, empty issuer,
subject and audience, and a past expiry. -/
def ctx4b : SignCtx :=
  { ctxFix with subtle := true, iss := "", sub := "", aud := [], exp := some 1 }

/-- Command-line fixture with both the key and the jwks flags set. -/
def ctx5 : SignCtx := { ctxFix with jwks := "set.json" }

theorem getClaim_append_some {k : String} {v : Json} {l1 l2 : List (String × Json)}
    (h : getClaim k l1 = some v) : getClaim k (l1 ++ l2) = some v := by
  induction l1 with
  | nil => simp [getClaim] at h
  | cons kv rest ih =>
    by_cases hk : kv.1 = k
    · simp [getClaim, hk] at h ⊢; exact h
    · simp [getClaim, hk] at h ⊢; exact ih h

theorem getClaim_append_none {k : String} {l1 l2 : List (String × Json)}
    (h : getClaim k l1 = none) : getClaim k (l1 ++ l2) = getClaim k l2 := by
  induction l1 with
  | nil => simp
  | cons kv rest ih =>
    by_cases hk : kv.1 = k
    · simp [getClaim, hk] at h
    · simp [getClaim, hk] at h ⊢; exact ih h

theorem b64Char_ne_dot (n : Nat) : b64Char n ≠ '.' := by
  have hall : ∀ c ∈ b64Alphabet, c ≠ '.' := by decide
  have hd : ('A' : Char) ≠ '.' := by decide
  unfold b64Char
  generalize b64Alphabet = l at hall
  induction l generalizing n with
  | nil => simpa [List.getD] using hd
  | cons c cs ih =>
    cases n with
    | zero => simp; exact hall c (by simp)
    | succ m =>
      simpa [List.getD] using ih m (fun x hx => hall x (by simp [hx]))

theorem b64urlBytes_ne_dot : ∀ (l : List Nat), ∀ ch ∈ b64urlBytes l, ch ≠ '.'
  | [], ch, h => by simp [b64urlBytes] at h
  | [a], ch, h => by
    simp [b64urlBytes] at h
    rcases h with h | h <;> subst h <;> exact b64Char_ne_dot _
  | [a, b], ch, h => by
    simp [b64urlBytes] at h
    rcases h with h | h | h <;> subst h <;> exact b64Char_ne_dot _
  | a :: b :: c :: rest, ch, h => by
    simp only [b64urlBytes, List.mem_cons] at h
    rcases h with h | h | h | h | h
    · subst h; exact b64Char_ne_dot _
    · subst h; exact b64Char_ne_dot _
    · subst h; exact b64Char_ne_dot _
    · subst h; exact b64Char_ne_dot _
    · exact b64urlBytes_ne_dot rest ch h

theorem b64url_ne_dot (s : String) : ∀ ch ∈ (b64url s).data, ch ≠ '.' := by
  intro ch h
  exact b64urlBytes_ne_dot _ ch h

theorem serializeJWS_three_parts (t : JWS) :
    ∃ x y z : String,
      serializeJWS t = x ++ "." ++ y ++ "." ++ z ∧
      (∀ ch ∈ x.data, ch ≠ '.') ∧ (∀ ch ∈ y.data, ch ≠ '.') ∧
      (∀ ch ∈ z.data, ch ≠ '.') := by
  refine ⟨b64url (renderHeader t.header), b64url (renderJson (Json.obj t.claims)),
    String.mk (b64urlBytes t.sig), rfl, b64url_ne_dot _, b64url_ne_dot _, ?_⟩
  intro ch h
  exact b64urlBytes_ne_dot _ ch h

theorem Hex_length (length : Nat) (rand : Nat → Fin 16) :
    (Hex length rand).length = length := by
  simp [Hex, String.length]

theorem hexDigit_mem (n : Fin 16) : hexDigit n ∈ "0123456789abcdef".data := by
  have revd : ∀ m : Fin 16, hexDigit m ∈ "0123456789abcdef".data := by decide
  exact revd n

theorem buildClaims_issuer (ctx : SignCtx) (now : Int) (r : String) :
    (buildClaims ctx now r).issuer = ctx.iss := by
  simp only [buildClaims]
  split_ifs <;> rfl

theorem buildClaims_subject (ctx : SignCtx) (now : Int) (r : String) :
    (buildClaims ctx now r).subject = ctx.sub := by
  simp only [buildClaims]
  split_ifs <;> rfl

theorem buildClaims_audience (ctx : SignCtx) (now : Int) (r : String) :
    (buildClaims ctx now r).audience = ctx.aud := by
  simp only [buildClaims]
  split_ifs <;> rfl

theorem buildClaims_expiry (ctx : SignCtx) (now : Int) (r : String) :
    (buildClaims ctx now r).expiry = UnixNumericDate (ctx.exp.getD 0) := by
  simp only [buildClaims]
  split_ifs <;> rfl

theorem buildClaims_notBefore_default (ctx : SignCtx) (now : Int) (r : String)
    (h : ctx.nbf = none) : (buildClaims ctx now r).notBefore = some now := by
  simp only [buildClaims, h]
  simp [UnixNumericDate]
  split_ifs <;> simp_all

theorem buildClaims_issuedAt_default (ctx : SignCtx) (now : Int) (r : String)
    (h : ctx.iat = none) : (buildClaims ctx now r).issuedAt = some now := by
  simp only [buildClaims, h]
  simp [UnixNumericDate]
  split_ifs <;> simp_all

theorem buildClaims_id_given_empty (ctx : SignCtx) (now : Int) (r : String)
    (h : ctx.jti = some "") : (buildClaims ctx now r).id = r := by
  simp only [buildClaims, h]
  split_ifs <;> simp_all

theorem buildClaims_id_unset (ctx : SignCtx) (now : Int) (r : String)
    (h : ctx.jti = none) : (buildClaims ctx now r).id = "" := by
  simp only [buildClaims, h]
  split_ifs <;> simp_all

theorem getClaim_skip_if (k k2 : String) (b : Prop) [Decidable b] (v : Json)
    (l : List (String × Json)) (h : k2 ≠ k) :
    getClaim k ((if b then [] else [(k2, v)]) ++ l) = getClaim k l := by
  apply getClaim_append_none
  split <;> simp [getClaim, h]

theorem getClaim_skip_opt (k k2 : String) (o : Option Int)
    (l : List (String × Json)) (h : k2 ≠ k) :
    getClaim k (optSeg k2 o ++ l) = getClaim k l := by
  apply getClaim_append_none
  cases o <;> simp [optSeg, getClaim, h]

theorem getClaim_take_opt (k : String) (o : Option Int) (l : List (String × Json))
    (h : getClaim k l = none) :
    getClaim k (optSeg k o ++ l) = o.map Json.num := by
  cases o with
  | none => simpa [optSeg] using h
  | some v => simp [optSeg, getClaim]

theorem getClaim_if_end (k k2 : String) (b : Prop) [Decidable b] (v : Json) (h : k2 ≠ k) :
    getClaim k (if b then [] else [(k2, v)]) = none := by
  split <;> simp [getClaim, h]

theorem marshal_nbf (c : Claims) :
    getClaim "nbf" (marshalClaims c) = c.notBefore.map Json.num := by
  unfold marshalClaims
  rw [getClaim_skip_if "nbf" "iss" _ _ _ (by decide)]
  rw [getClaim_skip_if "nbf" "sub" _ _ _ (by decide)]
  rw [getClaim_skip_if "nbf" "aud" _ _ _ (by decide)]
  rw [getClaim_skip_opt "nbf" "exp" _ _ (by decide)]
  apply getClaim_take_opt
  rw [getClaim_skip_opt "nbf" "iat" _ _ (by decide)]
  exact getClaim_if_end "nbf" "jti" _ _ (by decide)

theorem marshal_iat (c : Claims) :
    getClaim "iat" (marshalClaims c) = c.issuedAt.map Json.num := by
  unfold marshalClaims
  rw [getClaim_skip_if "iat" "iss" _ _ _ (by decide)]
  rw [getClaim_skip_if "iat" "sub" _ _ _ (by decide)]
  rw [getClaim_skip_if "iat" "aud" _ _ _ (by decide)]
  rw [getClaim_skip_opt "iat" "exp" _ _ (by decide)]
  rw [getClaim_skip_opt "iat" "nbf" _ _ (by decide)]
  apply getClaim_take_opt
  exact getClaim_if_end "iat" "jti" _ _ (by decide)

theorem marshal_jti (c : Claims) :
    getClaim "jti" (marshalClaims c) =
      if c.id = "" then none else some (Json.str c.id) := by
  unfold marshalClaims
  rw [getClaim_skip_if "jti" "iss" _ _ _ (by decide)]
  rw [getClaim_skip_if "jti" "sub" _ _ _ (by decide)]
  rw [getClaim_skip_if "jti" "aud" _ _ _ (by decide)]
  rw [getClaim_skip_opt "jti" "exp" _ _ (by decide)]
  rw [getClaim_skip_opt "jti" "nbf" _ _ (by decide)]
  rw [getClaim_skip_opt "jti" "iat" _ _ (by decide)]
  split <;> simp [getClaim]

theorem getClaim_audOverride {k : String} (c : Claims) (hk : k ≠ "aud") :
    getClaim k (audOverride c) = none := by
  unfold audOverride
  have h2 : ¬ ("aud" = k) := fun hh => hk hh.symm
  rcases c.audience with _ | ⟨a, _ | ⟨b, rest⟩⟩ <;> simp [getClaim, h2]

theorem Hex_mem (n : Nat) (r : Nat → Fin 16) :
    ∀ ch ∈ (Hex n r).data, ch ∈ "0123456789abcdef".data := by
  intro ch h
  simp only [Hex] at h
  obtain ⟨i, hi, rfl⟩ := List.mem_map.mp h
  exact hexDigit_mem _

theorem signAction_after_key {ctx : SignCtx} {env : SignEnv}
    {payload : List (String × Json)} {jwk : JSONWebKey}
    (h : ReachesClaims ctx env payload jwk) :
    signAction ctx env =
      ([Event.readPayload (match ctx.args with | [] => "" | f :: _ => f),
        Event.parseKey ctx.key],
       match checkExpFlag ctx.subtle ctx.exp env.now with
       | some e => .error e
       | none =>
         match validateRecommended ctx.subtle
             (buildClaims ctx env.now (Hex 40 env.rand)) env.now with
         | some e => .error e
         | none =>
           if ¬env.newSignerOk then .error .signerError
           else
             .ok { header := signerHeader ctx.noKid jwk
                   claims := mergeClaims (mergeClaims
                     (marshalClaims (buildClaims ctx env.now (Hex 40 env.rand)))
                     (audOverride (buildClaims ctx env.now (Hex 40 env.rand)))) payload
                   sig := env.sigBytes }) := by
  obtain ⟨hargs, hp, hkey, hjwks, hparse, hpub, huse, halg, hval⟩ := h
  have hlen : ¬ 2 ≤ ctx.args.length := by omega
  have husec : ¬ (jwk.use ≠ "sig" ∧ jwk.use ≠ "") := by
    rcases huse with h1 | h1 <;> simp [h1]
  have hck : checkKeyFlags ctx = none := by
    simp [checkKeyFlags, hkey, hjwks]
  unfold signAction
  rw [if_neg hlen]
  simp only [hp, hck, if_pos hkey, hparse, hpub, halg, hval, Bool.false_eq_true,
    if_false, husec, Bool.not_true, Bool.not_false]
  simp [husec, halg]
  cases hc1 : checkExpFlag ctx.subtle ctx.exp env.now with
  | some e => rfl
  | none =>
    cases hc2 : validateRecommended ctx.subtle
        (buildClaims ctx env.now (Hex 40 env.rand)) env.now with
    | some e => rfl
    | none => by_cases hs : env.newSignerOk = false <;> simp [hs]

theorem signAction_success {ctx : SignCtx} {env : SignEnv}
    {payload : List (String × Json)} {jwk : JSONWebKey}
    (h : ReachesSigning ctx env payload jwk) :
    signAction ctx env =
      ([Event.readPayload (match ctx.args with | [] => "" | f :: _ => f),
        Event.parseKey ctx.key],
       .ok { header := signerHeader ctx.noKid jwk
             claims := mergeClaims (mergeClaims
               (marshalClaims (buildClaims ctx env.now (Hex 40 env.rand)))
               (audOverride (buildClaims ctx env.now (Hex 40 env.rand)))) payload
             sig := env.sigBytes }) := by
  rw [signAction_after_key h.toReachesClaims, h.expOk, h.recommendedOk]
  simp [h.signerOk]

theorem signAction_flagError {ctx : SignCtx} {env : SignEnv}
    {payload : List (String × Json)} {e : SignError}
    (hargs : ctx.args.length ≤ 1) (hp : env.payloadResult = .ok payload)
    (hc : checkKeyFlags ctx = some e) :
    signAction ctx env =
      ([Event.readPayload (match ctx.args with | [] => "" | f :: _ => f)],
       .error e) := by
  have hlen : ¬ 2 ≤ ctx.args.length := by omega
  unfold signAction
  rw [if_neg hlen]
  simp only [hp, hc]

/-- C1 counterexample: with a single flag audience A but a user payload
that itself binds aud to the array holding B, the sign workflow
produces a token whose aud member is that JSON array, not the bare
string A, refuting the unconditional single-audience string encoding. -/
theorem C1_counterexample :
    (signAction ctxC1 (envFix payloadC1)).2 = Except.ok jwsC1 ∧
    ctxC1.aud = ["A"] ∧
    getClaim "aud" jwsC1.claims = some (Json.arr [Json.str "B"]) ∧
    getClaim "aud" jwsC1.claims ≠ some (Json.str "A") := by
  refine ⟨rfl, rfl, rfl, ?_⟩
  intro h
  have h2 : some (Json.arr [Json.str "B"]) = some (Json.str "A") := h
  exact Json.noConfusion (Option.some.inj h2)

/-- C1 (amended): for every run of the standalone sign workflow whose
claim set carries exactly one audience value and whose user payload
does not itself bind aud, the produced token encodes aud as the bare
JSON string equal to that value, never as a one-element array. -/
theorem C1_single_audience_bare_string (ctx : SignCtx) (env : SignEnv)
    (payload : List (String × Json)) (jwk : JSONWebKey) (a : String)
    (h : ReachesSigning ctx env payload jwk)
    (haud : ctx.aud = [a]) (hp : getClaim "aud" payload = none) :
    ∃ tr jws, signAction ctx env = (tr, Except.ok jws) ∧
      getClaim "aud" jws.claims = some (Json.str a) ∧
      ∀ l, getClaim "aud" jws.claims ≠ some (Json.arr l) := by
  rw [signAction_success h]
  have hea : (buildClaims ctx env.now (Hex 40 env.rand)).audience = [a] := by
    rw [buildClaims_audience, haud]
  have hover : audOverride (buildClaims ctx env.now (Hex 40 env.rand)) =
      [("aud", Json.str a)] := by
    unfold audOverride
    rw [hea]
  have hmain : getClaim "aud"
      (mergeClaims (mergeClaims
        (marshalClaims (buildClaims ctx env.now (Hex 40 env.rand)))
        (audOverride (buildClaims ctx env.now (Hex 40 env.rand)))) payload) =
      some (Json.str a) := by
    unfold mergeClaims
    rw [getClaim_append_none hp, hover]
    simp [getClaim]
  refine ⟨_, _, rfl, hmain, ?_⟩
  intro l hl
  rw [hmain] at hl
  exact Json.noConfusion (Option.some.inj hl)

theorem C1_single_audience_bare_string_witness :
    ∃ tr jws, signAction ctxC1 (envFix []) = (tr, Except.ok jws) ∧
      getClaim "aud" jws.claims = some (Json.str "A") ∧
      ∀ l, getClaim "aud" jws.claims ≠ some (Json.arr l) :=
  C1_single_audience_bare_string ctxC1 (envFix []) [] jwkFix "A"
    ⟨⟨by decide, rfl, by decide, rfl, rfl, rfl, Or.inl rfl, by decide, rfl⟩,
      rfl, rfl, rfl⟩ rfl rfl

/-- C2: with a configuration holding exactly one JWK provisioner named
admin with a non-empty encrypted key and primary DNS name
ca.example.com, GenerateToken for the sign token type decrypts the
provisioner key and returns a three-part compact JWT with issuer
admin, the sign audience of the primary DNS name, the caller subject,
and a header kid equal to the provisioner key id. -/
theorem C2_generate_token (c : OfflineCA) (env : GenEnv) (kid ek ic : String)
    (rootPaths : List String) (nb na : Int) (d : List Nat) (jwkKey : JSONWebKey)
    (hc : c.config = { dnsNames := ["ca.example.com"], root := rootPaths,
                       intermediateCert := ic,
                       authorityConfig := some
                         { provisioners := [Provisioner.jwk "admin" ⟨kid⟩ ek] } })
    (hek : ek ≠ "")
    (hdec : env.decrypt ek = Except.ok d)
    (hum : env.unmarshalJWK d = Except.ok jwkKey) :
    ∃ jws : JWS,
      GenerateToken c env signType "user@example.com" [] nb na =
        Except.ok (serializeJWS jws) ∧
      jws.header.kid = some kid ∧
      getClaim "iss" jws.claims = some (Json.str "admin") ∧
      getClaim "aud" jws.claims = some (Json.str "https://ca.example.com/sign") ∧
      getClaim "sub" jws.claims = some (Json.str "user@example.com") ∧
      (∃ x y z : String, serializeJWS jws = x ++ "." ++ y ++ "." ++ z ∧
        (∀ ch ∈ x.data, ch ≠ '.') ∧ (∀ ch ∈ y.data, ch ≠ '.') ∧
        (∀ ch ∈ z.data, ch ≠ '.')) := by
  refine ⟨{ header := { alg := jwkKey.algorithm, typ := "JWT", kid := some kid },
            claims := [("iss", Json.str "admin"),
                       ("sub", Json.str "user@example.com"),
                       ("aud", Json.str "https://ca.example.com/sign"),
                       ("nbf", Json.num nb), ("exp", Json.num na)],
            sig := env.sigBytes },
    ?_, rfl, rfl, rfl, rfl, serializeJWS_three_parts _⟩
  unfold GenerateToken Audience Provisioners provisionerPrompt Root
  rw [hc]
  simp [signType, revokeType, hek, hdec, hum, generateToken]

theorem C2_generate_token_witness :
    ∃ jws : JWS,
      GenerateToken caFix envGenFix signType "user@example.com" [] 3 900 =
        Except.ok (serializeJWS jws) ∧
      jws.header.kid = some "kid1" ∧
      getClaim "iss" jws.claims = some (Json.str "admin") ∧
      getClaim "aud" jws.claims = some (Json.str "https://ca.example.com/sign") ∧
      getClaim "sub" jws.claims = some (Json.str "user@example.com") ∧
      (∃ x y z : String, serializeJWS jws = x ++ "." ++ y ++ "." ++ z ∧
        (∀ ch ∈ x.data, ch ≠ '.') ∧ (∀ ch ∈ y.data, ch ≠ '.') ∧
        (∀ ch ∈ z.data, ch ≠ '.')) :=
  C2_generate_token caFix envGenFix "kid1" "enc-key" "im.crt" ["root.crt"]
    3 900 [7] jwkFix rfl (by decide) rfl rfl

/-- C3: when the decoded configuration has no authority section or an
empty provisioner list, loading the offline authority fails with the
no-provisioners configuration error, and this holds for every
authority constructor, so no Authority instance is built. -/
theorem C3_load_requires_provisioners (readFileResult : Except String (List Nat))
    (unmarshal : List Nat → Except String Config)
    (authorityNew : Config → Except String Authority) (configFile : String)
    (b : List Nat) (config : Config)
    (hrf : readFileResult = Except.ok b)
    (hum : unmarshal b = Except.ok config)
    (hz : config.authorityConfig = none ∨
      ∃ ac, config.authorityConfig = some ac ∧ ac.provisioners = []) :
    newOfflineCA readFileResult unmarshal authorityNew configFile =
      Except.error ("error parsing " ++ configFile ++ ": no provisioners found") := by
  subst hrf
  unfold newOfflineCA
  simp only [hum]
  rcases hz with h | ⟨ac, h, hp2⟩
  · simp [h]
  · simp [h, hp2]

theorem C3_load_requires_provisioners_witness :
    newOfflineCA (Except.ok [0]) (fun _ => Except.ok cfgEmptyProv)
      (fun cfg => Except.ok { cfg := cfg }) "ca.json" =
      Except.error ("error parsing " ++ "ca.json" ++ ": no provisioners found") :=
  C3_load_requires_provisioners _ _ _ _ [0] cfgEmptyProv rfl rfl
    (Or.inr ⟨_, rfl, rfl⟩)

/-- C4: without the subtle override the issuer, audience, subject and
expiry flags are required in the sign workflow, each missing one
failing with the error naming it, and a supplied non-zero expiry lying
in the past is rejected; with the subtle override the workflow
succeeds, whatever of the four is absent and even with a past
expiry. -/
theorem C4_claim_policy (ctx : SignCtx) (env : SignEnv)
    (payload : List (String × Json)) (jwk : JSONWebKey)
    (h : ReachesClaims ctx env payload jwk) :
    (ctx.subtle = false → checkExpFlag false ctx.exp env.now = none →
      (ctx.iss = "" →
        (signAction ctx env).2 = Except.error (SignError.requiredFlag "iss")) ∧
      (ctx.iss ≠ "" → ctx.aud = [] →
        (signAction ctx env).2 = Except.error (SignError.requiredFlag "aud")) ∧
      (ctx.iss ≠ "" → ctx.aud ≠ [] → ctx.sub = "" →
        (signAction ctx env).2 = Except.error (SignError.requiredFlag "sub")) ∧
      (ctx.iss ≠ "" → ctx.aud ≠ [] → ctx.sub ≠ "" → ctx.exp = none →
        (signAction ctx env).2 = Except.error (SignError.requiredFlag "exp"))) ∧
    (ctx.subtle = false → ∀ v : Int, ctx.exp = some v → v ≠ 0 → v < env.now →
      (signAction ctx env).2 = Except.error SignError.expMustBeInFuture) ∧
    (ctx.subtle = true → env.newSignerOk = true →
      ∃ tr jws, signAction ctx env = (tr, Except.ok jws)) := by
  have hred := signAction_after_key h
  refine ⟨?_, ?_, ?_⟩
  · intro hs hexp
    rw [hred, hs, hexp]
    refine ⟨?_, ?_, ?_, ?_⟩
    · intro hiss
      simp [validateRecommended, buildClaims_issuer, hiss]
    · intro hiss haud
      simp [validateRecommended, buildClaims_issuer, buildClaims_audience, hiss, haud]
    · intro hiss haud hsub
      simp [validateRecommended, buildClaims_issuer, buildClaims_audience,
        buildClaims_subject, hiss, haud, hsub]
    · intro hiss haud hsub hexp2
      simp [validateRecommended, buildClaims_issuer, buildClaims_audience,
        buildClaims_subject, buildClaims_expiry, hiss, haud, hsub, hexp2,
        UnixNumericDate]
  · intro hs v hv hv0 hlt
    rw [hred, hs, hv]
    simp [checkExpFlag, UnixNumericDate, hv0, hlt]
  · intro hs hsig
    rw [hred, hs]
    simp only [checkExpFlag, Bool.not_true, false_and, if_neg, ite_false]
    simp [checkExpFlag, validateRecommended, hsig]

theorem C4_claim_policy_witness :
    ((signAction ctx4a (envFix [])).2 =
      Except.error (SignError.requiredFlag "iss")) ∧
    ∃ tr jws, signAction ctx4b (envFix []) = (tr, Except.ok jws) :=
  ⟨((C4_claim_policy ctx4a (envFix []) [] jwkFix
      ⟨by decide, rfl, by decide, rfl, rfl, rfl, Or.inl rfl, by decide, rfl⟩).1
      rfl rfl).1 rfl,
   (C4_claim_policy ctx4b (envFix []) [] jwkFix
      ⟨by decide, rfl, by decide, rfl, rfl, rfl, Or.inl rfl, by decide, rfl⟩).2.2
      rfl rfl⟩

/-- C5: exactly one of the key and jwks flags must be given: neither
being set is a usage error, both being set is the mutual-exclusion
usage error raised before any key-path file access, and a key set
without a key id is a usage error. -/
theorem C5_key_flag_validation (ctx : SignCtx) (env : SignEnv)
    (payload : List (String × Json))
    (hargs : ctx.args.length ≤ 1)
    (hp : env.payloadResult = Except.ok payload) :
    (ctx.key = "" → ctx.jwks = "" →
      (signAction ctx env).2 = Except.error (SignError.requiredOrFlag "key" "jwks")) ∧
    (ctx.key ≠ "" → ctx.jwks ≠ "" →
      (signAction ctx env).2 =
        Except.error (SignError.mutuallyExclusiveFlags "key" "jwks") ∧
      ∀ p, Event.parseKey p ∉ (signAction ctx env).1 ∧
        Event.parseKeySet p ∉ (signAction ctx env).1) ∧
    (ctx.key = "" → ctx.jwks ≠ "" → ctx.kid = "" →
      (signAction ctx env).2 = Except.error (SignError.requiredWithFlag "kid" "jwks")) := by
  refine ⟨?_, ?_, ?_⟩
  · intro h1 h2
    have he : checkKeyFlags ctx = some (SignError.requiredOrFlag "key" "jwks") := by
      simp [checkKeyFlags, h1, h2]
    rw [signAction_flagError hargs hp he]
  · intro h1 h2
    have he : checkKeyFlags ctx =
        some (SignError.mutuallyExclusiveFlags "key" "jwks") := by
      simp [checkKeyFlags, h1, h2]
    rw [signAction_flagError hargs hp he]
    exact ⟨rfl, fun p => by simp⟩
  · intro h1 h2 h3
    have he : checkKeyFlags ctx = some (SignError.requiredWithFlag "kid" "jwks") := by
      simp [checkKeyFlags, h1, h2, h3]
    rw [signAction_flagError hargs hp he]

theorem C5_key_flag_validation_witness :
    (signAction ctx5 (envFix [])).2 =
      Except.error (SignError.mutuallyExclusiveFlags "key" "jwks") ∧
    Event.parseKey "key.pem" ∉ (signAction ctx5 (envFix [])).1 :=
  ⟨((C5_key_flag_validation ctx5 (envFix []) []
      (by decide) rfl).2.1 (by decide) (by decide)).1,
   (((C5_key_flag_validation ctx5 (envFix []) []
      (by decide) rfl).2.1 (by decide) (by decide)).2 "key.pem").1⟩

/-- C6: Revoke takes exactly one of two modes: with a non-empty
one-time token the token is delegated with MTLS false and no
certificate; otherwise the peer leaf certificate is parsed from the
transport state and delegated with MTLS true; every successful
delegation answers exactly the ok status. -/
theorem C6_revoke_modes (authorityRevoke : RevokeOptions → Option String)
    (parseCertificate : List Nat → Except String Certificate)
    (c : OfflineCA) (req : RevokeRequest) (tr : Transport) :
    (0 < req.ott.length →
      Revoke authorityRevoke parseCertificate c req tr =
        (match authorityRevoke (mkRevokeOpts req req.ott false none) with
         | some e => Except.error e
         | none => Except.ok { status := "ok" })) ∧
    (req.ott.length = 0 →
      Revoke authorityRevoke parseCertificate c req tr =
        (match parseCertificate tr.leafCertDER with
         | Except.error e => Except.error ("error parsing certificate: " ++ e)
         | Except.ok crt =>
           match authorityRevoke (mkRevokeOpts req "" true (some crt)) with
           | some e => Except.error e
           | none => Except.ok { status := "ok" })) ∧
    (∀ resp, Revoke authorityRevoke parseCertificate c req tr = Except.ok resp →
      resp = { status := "ok" }) := by
  refine ⟨?_, ?_, ?_⟩
  · intro h
    unfold Revoke mkRevokeOpts
    dsimp only
    rw [if_pos h]
  · intro h
    unfold Revoke mkRevokeOpts
    dsimp only
    rw [if_neg (by omega)]
    cases parseCertificate tr.leafCertDER <;> rfl
  · intro resp hr
    unfold Revoke at hr
    dsimp only at hr
    by_cases h : 0 < req.ott.length
    · rw [if_pos h] at hr
      dsimp only at hr
      split at hr
      · exact Except.noConfusion hr
      · exact (Except.ok.inj hr).symm
    · rw [if_neg h] at hr
      cases hpc : parseCertificate tr.leafCertDER with
      | error e =>
        rw [hpc] at hr
        dsimp only at hr
        exact Except.noConfusion hr
      | ok crt =>
        rw [hpc] at hr
        dsimp only at hr
        split at hr
        · exact Except.noConfusion hr
        · exact (Except.ok.inj hr).symm

theorem C6_revoke_modes_witness :
    0 < reqFix.ott.length ∧
    Revoke (fun _ => none) (fun d => Except.ok { der := d }) caFix reqFix
      { leafCertDER := [1] } = Except.ok { status := "ok" } := by
  refine ⟨by decide, ?_⟩
  rw [(C6_revoke_modes (fun _ => none) (fun d => Except.ok { der := d }) caFix
    reqFix { leafCertDER := [1] }).1 (by decide)]

/-- C7: in the sign workflow an unset not-before or issued-at flag
defaults the claim to the current time; the unique-id flag given
without a value yields a generated random hexadecimal id of exactly 40
hexadecimal characters; without the unique-id flag no id claim is
emitted. -/
theorem C7_defaulted_claims (ctx : SignCtx) (env : SignEnv)
    (payload : List (String × Json)) (jwk : JSONWebKey)
    (h : ReachesSigning ctx env payload jwk) :
    ∃ tr jws, signAction ctx env = (tr, Except.ok jws) ∧
      ((ctx.nbf = none → getClaim "nbf" payload = none →
        getClaim "nbf" jws.claims = some (Json.num env.now)) ∧
      (ctx.iat = none → getClaim "iat" payload = none →
        getClaim "iat" jws.claims = some (Json.num env.now)) ∧
      (ctx.jti = some "" → getClaim "jti" payload = none →
        getClaim "jti" jws.claims = some (Json.str (Hex 40 env.rand)) ∧
        (Hex 40 env.rand).length = 40 ∧
        (∀ ch ∈ (Hex 40 env.rand).data, ch ∈ "0123456789abcdef".data)) ∧
      (ctx.jti = none → getClaim "jti" payload = none →
        getClaim "jti" jws.claims = none)) := by
  rw [signAction_success h]
  refine ⟨_, _, rfl, ?_, ?_, ?_, ?_⟩
  · intro h1 h2
    unfold mergeClaims
    rw [getClaim_append_none h2,
      getClaim_append_none (getClaim_audOverride _ (by decide)),
      marshal_nbf, buildClaims_notBefore_default _ _ _ h1]
    rfl
  · intro h1 h2
    unfold mergeClaims
    rw [getClaim_append_none h2,
      getClaim_append_none (getClaim_audOverride _ (by decide)),
      marshal_iat, buildClaims_issuedAt_default _ _ _ h1]
    rfl
  · intro h1 h2
    have hid : (buildClaims ctx env.now (Hex 40 env.rand)).id = Hex 40 env.rand :=
      buildClaims_id_given_empty _ _ _ h1
    have hne : Hex 40 env.rand ≠ "" := by
      intro hh
      have hl := Hex_length 40 env.rand
      rw [hh] at hl
      exact absurd hl (by decide)
    refine ⟨?_, Hex_length 40 env.rand, Hex_mem 40 env.rand⟩
    unfold mergeClaims
    rw [getClaim_append_none h2,
      getClaim_append_none (getClaim_audOverride _ (by decide)),
      marshal_jti, hid, if_neg hne]
  · intro h1 h2
    have hid : (buildClaims ctx env.now (Hex 40 env.rand)).id = "" :=
      buildClaims_id_unset _ _ _ h1
    unfold mergeClaims
    rw [getClaim_append_none h2,
      getClaim_append_none (getClaim_audOverride _ (by decide)),
      marshal_jti, hid, if_pos rfl]

theorem C7_defaulted_claims_witness :
    ∃ tr jws, signAction ctx7 (envFix []) = (tr, Except.ok jws) ∧
      ((ctx7.nbf = none → getClaim "nbf" [] = none →
        getClaim "nbf" jws.claims = some (Json.num (envFix []).now)) ∧
      (ctx7.iat = none → getClaim "iat" [] = none →
        getClaim "iat" jws.claims = some (Json.num (envFix []).now)) ∧
      (ctx7.jti = some "" → getClaim "jti" [] = none →
        getClaim "jti" jws.claims =
          some (Json.str (Hex 40 (envFix []).rand)) ∧
        (Hex 40 (envFix []).rand).length = 40 ∧
        (∀ ch ∈ (Hex 40 (envFix []).rand).data,
          ch ∈ "0123456789abcdef".data)) ∧
      (ctx7.jti = none → getClaim "jti" [] = none →
        getClaim "jti" jws.claims = none)) :=
  C7_defaulted_claims ctx7 (envFix []) [] jwkFix
    ⟨⟨by decide, rfl, by decide, rfl, rfl, rfl, Or.inl rfl, by decide, rfl⟩,
      rfl, rfl, rfl⟩

/-- C8: loading the offline authority never inspects the DNS-name
list, so a configuration with provisioners but no DNS names loads
successfully; the audience and CA-URL accessors index the first DNS
name and are defined exactly when at least one DNS name is
configured. -/
theorem C8_dns_unchecked :
    (∀ (readFileResult : Except String (List Nat))
      (unmarshal : List Nat → Except String Config)
      (authorityNew : Config → Except String Authority) (configFile : String)
      (b : List Nat) (config : Config) (auth : Authority),
      readFileResult = Except.ok b → unmarshal b = Except.ok config →
      config.dnsNames = [] →
      (∃ ac, config.authorityConfig = some ac ∧ ac.provisioners ≠ []) →
      authorityNew config = Except.ok auth →
      newOfflineCA readFileResult unmarshal authorityNew configFile =
        Except.ok { authority := auth, config := config,
                    configFile := configFile }) ∧
    (∀ (c : OfflineCA) (tokType : Int),
      (Audience c tokType).isSome ↔ c.config.dnsNames ≠ []) ∧
    (∀ c : OfflineCA, (CaURL c).isSome ↔ c.config.dnsNames ≠ []) := by
  refine ⟨?_, ?_, ?_⟩
  · rintro rf um an cf b config auth hrf hum hdns ⟨ac, hac, hne⟩ han
    subst hrf
    unfold newOfflineCA
    simp only [hum]
    rw [if_neg (by simp [hac, hne])]
    simp [han]
  · intro c t
    cases hd : c.config.dnsNames <;> simp [Audience, hd]
  · intro c
    cases hd : c.config.dnsNames <;> simp [CaURL, hd]

theorem C8_dns_unchecked_witness :
    newOfflineCA (Except.ok []) (fun _ => Except.ok cfgNoDNS)
      (fun cfg => Except.ok { cfg := cfg }) "ca.json" =
      Except.ok { authority := { cfg := cfgNoDNS }, config := cfgNoDNS,
                  configFile := "ca.json" } ∧
    Audience caNoDNS signType = none :=
  ⟨C8_dns_unchecked.1 (Except.ok []) (fun _ => Except.ok cfgNoDNS)
      (fun cfg => Except.ok { cfg := cfg }) "ca.json" [] cfgNoDNS
      { cfg := cfgNoDNS } rfl rfl rfl ⟨_, rfl, by decide⟩ rfl,
   Option.not_isSome_iff_eq_none.mp
     (fun hh => (C8_dns_unchecked.2.1 caNoDNS signType).mp hh rfl)⟩

/-- C9: the user payload is merged into the claim set after both the
flag-derived claims and the single-audience override, so any payload
binding, registered claim names included, is the value that appears in
the produced token. -/
theorem C9_payload_precedence (ctx : SignCtx) (env : SignEnv)
    (payload : List (String × Json)) (jwk : JSONWebKey) (k : String) (v : Json)
    (h : ReachesSigning ctx env payload jwk)
    (hk : getClaim k payload = some v) :
    ∃ tr jws, signAction ctx env = (tr, Except.ok jws) ∧
      getClaim k jws.claims = some v := by
  rw [signAction_success h]
  exact ⟨_, _, rfl, by unfold mergeClaims; exact getClaim_append_some hk⟩

theorem C9_payload_precedence_witness :
    ∃ tr jws,
      signAction ctxFix (envFix [("iss", Json.str "payloadIss")]) =
        (tr, Except.ok jws) ∧
      getClaim "iss" jws.claims = some (Json.str "payloadIss") :=
  C9_payload_precedence ctxFix (envFix [("iss", Json.str "payloadIss")])
    [("iss", Json.str "payloadIss")] jwkFix "iss" (Json.str "payloadIss")
    ⟨⟨by decide, rfl, by decide, rfl, rfl, rfl, Or.inl rfl, by decide, rfl⟩,
      rfl, rfl, rfl⟩ rfl

/-- C10: on success the token header carries a kid member equal to the
signing key id exactly when the hidden no-kid flag is unset and the
key id is non-empty; otherwise the header carries no kid member. -/
theorem C10_kid_header (ctx : SignCtx) (env : SignEnv)
    (payload : List (String × Json)) (jwk : JSONWebKey)
    (h : ReachesSigning ctx env payload jwk) :
    ∃ tr jws, signAction ctx env = (tr, Except.ok jws) ∧
      jws.header.kid =
        (if ¬ctx.noKid ∧ jwk.keyID ≠ "" then some jwk.keyID else none) := by
  rw [signAction_success h]
  exact ⟨_, _, rfl, rfl⟩

theorem C10_kid_header_witness :
    ∃ tr jws, signAction ctxFix (envFix []) = (tr, Except.ok jws) ∧
      jws.header.kid =
        (if ¬ctxFix.noKid ∧ jwkFix.keyID ≠ "" then some jwkFix.keyID
         else none) :=
  C10_kid_header ctxFix (envFix []) [] jwkFix
    ⟨⟨by decide, rfl, by decide, rfl, rfl, rfl, Or.inl rfl, by decide, rfl⟩,
      rfl, rfl, rfl⟩
